import Mathlib

/-!
Verification development for the RecoMart ingestion and storage pipeline.

The Python sources under `src/` are shallowly embedded as executable Lean
definitions: pure helpers become Lean functions, filesystem- and
network-touching code is modelled by explicit state passing (the filesystem
and the per-attempt session outcomes appear as input values), and fallible
code returns `Except`/`Option`.  Retry loops are written with an explicit
fuel argument so they reduce structurally; the fuel is always instantiated
to the exact iteration bound of the corresponding Python loop.

The file is organised as definitions first, then theorems.  Each claim about
the code is settled by one top-level theorem named `claim_*`.
-/

namespace RecoMart

/-! # Definitions -/

/-! ## Timestamps and `strftime("%Y%m%d_%H%M%S")`

`datetime` values carry year/month/day/hour/minute/second; the pipeline only
ever formats them to second granularity.  Python `datetime` enforces
1 ≤ year ≤ 9999, 1 ≤ month ≤ 12, 1 ≤ day ≤ 31, hour ≤ 23, minute ≤ 59,
second ≤ 59; `Timestamp.Valid` records exactly those bounds.
-/

structure Timestamp where
  year : Nat
  month : Nat
  day : Nat
  hour : Nat
  minute : Nat
  second : Nat
deriving DecidableEq, Repr

def Timestamp.Valid (t : Timestamp) : Prop :=
  1 ≤ t.year ∧ t.year ≤ 9999 ∧ 1 ≤ t.month ∧ t.month ≤ 12 ∧
  1 ≤ t.day ∧ t.day ≤ 31 ∧ t.hour ≤ 23 ∧ t.minute ≤ 59 ∧ t.second ≤ 59

instance (t : Timestamp) : Decidable t.Valid := by
  unfold Timestamp.Valid; infer_instance

/-- A decimal digit rendered as a character, as `strftime` zero-padding does. -/
def digitChar (n : Nat) : Char := Char.ofNat (48 + n)

/-- Two-digit zero-padded field (`%m`, `%d`, `%H`, `%M`, `%S`) as characters. -/
def pad2 (n : Nat) : List Char := [digitChar (n / 10 % 10), digitChar (n % 10)]

/-- Four-digit zero-padded field (`%Y`) as characters. -/
def pad4 (n : Nat) : List Char :=
  [digitChar (n / 1000 % 10), digitChar (n / 100 % 10),
   digitChar (n / 10 % 10), digitChar (n % 10)]

/-- `timestamp.strftime("%Y%m%d_%H%M%S")` from
`DataLakeStorageManager.create_partitioned_path` (storage_manager.py:95). -/
def strftimeCompact (t : Timestamp) : String :=
  String.mk (pad4 t.year ++ pad2 t.month ++ pad2 t.day ++ ['_'] ++
    pad2 t.hour ++ pad2 t.minute ++ pad2 t.second)

/-! ## `DataLakeStorageManager.create_partitioned_path`

A `pathlib.Path` is modelled as its list of segments.  The manager's
`base_path` is an ambient prefix shared by every call, so paths are given
relative to it; `create_partitioned_path` (storage_manager.py:79-99) appends
the four partition segments.
-/

def create_partitioned_path (base_dir data_type source : String)
    (timestamp : Timestamp) : List String :=
  [base_dir, "source=" ++ source, "type=" ++ data_type,
   "timestamp=" ++ strftimeCompact timestamp]

/-! ## Key-subset deduplication in `ingest_item_properties_csv`

`combined_df.drop_duplicates(subset=['itemid', 'property'], keep='last')`
(csv_ingester.py:420) keeps, for every (itemid, property) key, only the last
row bearing that key, at its original position.  A row is modelled by its two
key columns plus one field standing for all remaining columns.
-/

structure PropRow where
  itemid : Nat
  property : String
  value : String
deriving DecidableEq, Repr

/-- The `subset=['itemid', 'property']` dedup key. -/
def propKey (r : PropRow) : Nat × String := (r.itemid, r.property)

def defaultRow : PropRow := ⟨0, "", ""⟩

/-- `drop_duplicates(subset=..., keep='last')`: a row is dropped exactly when
a later row carries the same key. -/
def drop_duplicates_keep_last : List PropRow → List PropRow
  | [] => []
  | r :: rest =>
    if rest.any (fun s => propKey s == propKey r) then drop_duplicates_keep_last rest
    else r :: drop_duplicates_keep_last rest

/-- The dedup step of `ingest_item_properties_csv` (csv_ingester.py:417-421):
returns the deduplicated batch together with
`duplicates_removed = initial_records - len(combined_df)`. -/
def ingest_item_properties_dedup (rows : List PropRow) : List PropRow × Nat :=
  let deduped := drop_duplicates_keep_last rows
  (deduped, rows.length - deduped.length)

/-- Index `i` holds the last occurrence of its key in `rows`. -/
def isLastOcc (rows : List PropRow) (i : Nat) : Bool :=
  (List.range rows.length).all fun j =>
    decide (j ≤ i) || !(propKey (rows.getD j defaultRow) == propKey (rows.getD i defaultRow))

/-! ## `APIDataIngester.make_api_request` (api_ingester.py:189-225)

One `self.session.request(...)` call either returns a response (status code
and body text) or raises a `requests` exception; a run of the surrounding
`for attempt in range(1, retry_attempts + 1)` loop is therefore a function
from the attempt number to such an outcome.  The trace records the returned
triple together with how many session calls were made and which delays were
slept, in order.
-/

/-- Outcome of one `self.session.request(...)` call. -/
inductive SessionOutcome where
  | response : Nat → String → SessionOutcome
  | exn : String → SessionOutcome
deriving DecidableEq, Repr

/-- The outcomes the loop itself retries: HTTP 429 or a request exception. -/
def SessionOutcome.Transient : SessionOutcome → Prop
  | .response code _ => code = 429
  | .exn _ => True

instance : DecidablePred SessionOutcome.Transient := by
  intro o; unfold SessionOutcome.Transient; cases o <;> infer_instance

structure ApiRequestTrace where
  success : Bool
  data : Option String
  error : String
  attempts : Nat
  sleeps : List Nat
deriving DecidableEq, Repr

/-- The `return False, None, f"All {N} attempts failed"` reached when the
`for` loop runs out of attempts (api_ingester.py:225). -/
def allFailedTrace (N : Nat) : ApiRequestTrace :=
  { success := false, data := none,
    error := "All " ++ toString N ++ " attempts failed",
    attempts := 0, sleeps := [] }

/-- The attempt loop of `make_api_request`.  `fuel` is the number of loop
iterations remaining (`N + 1 - attempt` at every call); status 200 returns
success, 429 sleeps `retry_delay * attempt` and continues, any other status
returns failure immediately, and an exception retries (with the same delay)
only while `attempt < N`. -/
def make_api_request_go (N d : Nat) (outcomes : Nat → SessionOutcome) :
    Nat → Nat → ApiRequestTrace
  | 0, _ => allFailedTrace N
  | fuel + 1, attempt =>
    match outcomes attempt with
    | .response code body =>
      if code = 200 then
        { success := true, data := some body, error := "", attempts := 1, sleeps := [] }
      else if code = 429 then
        let r := make_api_request_go N d outcomes fuel (attempt + 1)
        { r with attempts := r.attempts + 1, sleeps := d * attempt :: r.sleeps }
      else
        { success := false, data := none,
          error := "HTTP " ++ toString code ++ ": " ++ body, attempts := 1, sleeps := [] }
    | .exn e =>
      if attempt < N then
        let r := make_api_request_go N d outcomes fuel (attempt + 1)
        { r with attempts := r.attempts + 1, sleeps := d * attempt :: r.sleeps }
      else
        { success := false, data := none,
          error := "Request exception: " ++ e, attempts := 1, sleeps := [] }

/-- `make_api_request` with `retry_attempts = N` and `retry_delay = d`:
the loop starts at attempt 1 with `N` iterations available. -/
def make_api_request (N d : Nat) (outcomes : Nat → SessionOutcome) : ApiRequestTrace :=
  make_api_request_go N d outcomes N 1

/-! ## `CSVDataIngester.ingest_events_csv` retry path (csv_ingester.py:303-317)

Each attempt of the body (read, validate, organize, ...) either succeeds or
raises with some message; an invocation is a function from `retry_count` to
that outcome.  On failure with `retry_count < max_retries` the code sleeps
the constant `retry_delay` and returns the recursive call's (fresh) result,
so the returned error list holds only the final attempt's message.
-/

structure CsvIngestTrace where
  status : Bool
  errors : List String
  attempts : Nat
  sleeps : List Nat
deriving DecidableEq, Repr

/-- The recursive retry of `ingest_events_csv`.  `fuel` is
`max_retries + 1 - retry_count` at every call, the number of attempts the
recursion can still make. -/
def ingest_events_csv_go (max_retries retry_delay : Nat)
    (outcomes : Nat → Except String Unit) :
    Nat → Nat → CsvIngestTrace
  | 0, _ => ⟨false, [], 0, []⟩
  | fuel + 1, retry_count =>
    match outcomes retry_count with
    | .ok _ => ⟨true, [], 1, []⟩
    | .error e =>
      if retry_count < max_retries then
        let r := ingest_events_csv_go max_retries retry_delay outcomes fuel (retry_count + 1)
        ⟨r.status, r.errors, r.attempts + 1, retry_delay :: r.sleeps⟩
      else ⟨false, ["Error ingesting events CSV: " ++ e], 1, []⟩

/-- `ingest_events_csv` entered with `retry_count = 0` and
`retry_attempts = max_retries`: up to `max_retries + 1` attempts in total. -/
def ingest_events_csv (max_retries retry_delay : Nat)
    (outcomes : Nat → Except String Unit) : CsvIngestTrace :=
  ingest_events_csv_go max_retries retry_delay outcomes (max_retries + 1) 0

/-! ## `DataLakeStorageManager.cleanup_old_data` (storage_manager.py:371-440)

The filesystem below the manager's `base_path` is modelled as the list of its
directories, each a segment list relative to `base_path`, in tree-walk order.
The cleanup routine globs `year=*` descendants of each retention-configured
tier, then `month=*` and `day=*` children, parses the numbers, and collects
directories dated strictly before `now - retention_days`; `ValueError` from
`int(...)` or `datetime(...)` aborts the enclosing `year=*` iteration
(keeping already-collected actions).  `datetime` comparison is mapped to day
numbers; directory sizes come from the `sizeOf` input standing for
`_get_directory_size`.
-/

/-- Days since 1970-01-01 of a civil date (Howard Hinnant's algorithm),
the order-preserving value underlying `datetime` comparison. -/
def daysFromCivil (y m d : Nat) : Int :=
  let yi : Int := if m ≤ 2 then (y : Int) - 1 else (y : Int)
  let era : Int := (if 0 ≤ yi then yi else yi - 399) / 400
  let yoe : Int := yi - era * 400
  let mp : Int := ((m : Int) + 9) % 12
  let doy : Int := (153 * mp + 2) / 5 + (d : Int) - 1
  let doe : Int := yoe * 365 + yoe / 4 - yoe / 100 + doy
  era * 146097 + doe - 719468

def isLeapYear (y : Nat) : Bool := (y % 4 == 0 && !(y % 100 == 0)) || y % 400 == 0

def daysInMonth (y m : Nat) : Nat :=
  if m == 2 then (if isLeapYear y then 29 else 28)
  else if m == 4 || m == 6 || m == 9 || m == 11 then 30
  else 31

/-- The range checks `datetime(year, month, day)` performs. -/
def isValidDate (y m d : Nat) : Bool :=
  1 ≤ y && y ≤ 9999 && 1 ≤ m && m ≤ 12 && 1 ≤ d && d ≤ daysInMonth y m

/-- `str.split("=")` on the character list. -/
def splitCharsOnEq : List Char → List (List Char)
  | [] => [[]]
  | c :: rest =>
    let r := splitCharsOnEq rest
    if c = '=' then [] :: r
    else
      match r with
      | [] => [[c]]
      | g :: gs => (c :: g) :: gs

/-- `int(digits)` for a nonempty all-digit string, `none` otherwise
(Python `int` raises `ValueError` there). -/
def charsToNat? (cs : List Char) : Option Nat :=
  if cs = [] then none
  else
    cs.foldl (fun acc c =>
      match acc with
      | none => none
      | some n =>
        if 48 ≤ c.toNat && c.toNat ≤ 57 then some (n * 10 + (c.toNat - 48))
        else none) (some 0)

/-- `int(name.split("=")[1])`, `none` when `int` raises `ValueError`. -/
def parsePartValue (seg : String) : Option Nat :=
  charsToNat? ((splitCharsOnEq seg.data).getD 1 [])

/-- Does the directory's final name start with the glob prefix (`"year="` for
the pattern `year=*`)? -/
def nameMatches (pre : String) (d : List String) : Bool :=
  match d.getLast? with
  | some s => pre.data.isPrefixOf s.data
  | none => false

/-- `path.rglob(pre ++ "*")` restricted to directories: every strict
descendant of `root` whose name starts with `pre`, in tree-listing order. -/
def rglobDirs (fs : List (List String)) (root : List String) (pre : String) :
    List (List String) :=
  fs.filter (fun e =>
    root.isPrefixOf e && decide (root.length < e.length) && nameMatches pre e)

/-- `dir.glob(pre ++ "*")`: direct children whose name starts with `pre`. -/
def globChildren (fs : List (List String)) (dir : List String) (pre : String) :
    List (List String) :=
  fs.filter (fun e =>
    dir.isPrefixOf e && (e.length == dir.length + 1) && nameMatches pre e)

structure CleanupAction where
  path : List String
  dateDays : Int
  tier : String
  size : Nat
deriving DecidableEq, Repr

/-- The `day=*` loop body; the `Bool` is true when a `ValueError` escaped
(aborting the enclosing `year=*` iteration, keeping actions appended so far). -/
def processDayDirs (tier : String) (cutoff : Int) (sizeOf : List String → Nat)
    (y m : Nat) : List (List String) → List CleanupAction × Bool
  | [] => ([], false)
  | dd :: rest =>
    match parsePartValue (dd.getLast?.getD "") with
    | none => ([], true)
    | some day =>
      if isValidDate y m day then
        let dirDate := daysFromCivil y m day
        let here := if dirDate < cutoff then
            [{ path := dd, dateDays := dirDate, tier := tier, size := sizeOf dd }]
          else []
        let acts := processDayDirs tier cutoff sizeOf y m rest
        (here ++ acts.1, acts.2)
      else ([], true)

def processMonthDirs (fs : List (List String)) (tier : String) (cutoff : Int)
    (sizeOf : List String → Nat) (y : Nat) :
    List (List String) → List CleanupAction × Bool
  | [] => ([], false)
  | md :: rest =>
    match parsePartValue (md.getLast?.getD "") with
    | none => ([], true)
    | some month =>
      let dayActs :=
        processDayDirs tier cutoff sizeOf y month (globChildren fs md "day=")
      if dayActs.2 then (dayActs.1, true)
      else
        let acts := processMonthDirs fs tier cutoff sizeOf y rest
        (dayActs.1 ++ acts.1, acts.2)

def processYearDir (fs : List (List String)) (tier : String) (cutoff : Int)
    (sizeOf : List String → Nat) (yd : List String) : List CleanupAction :=
  match parsePartValue (yd.getLast?.getD "") with
  | none => []
  | some year =>
    (processMonthDirs fs tier cutoff sizeOf year (globChildren fs yd "month=")).1

def processTier (fs : List (List String)) (tier : String) (cutoff : Int)
    (sizeOf : List String → Nat) : List CleanupAction :=
  ((rglobDirs fs [tier] "year=").map (processYearDir fs tier cutoff sizeOf)).flatten

/-- `cleanup_old_data` (storage_manager.py:371-418 up to the dry-run split):
the sorted (oldest-first) list of deletion candidates. -/
def cleanup_old_data (retention : List (String × Nat)) (fs : List (List String))
    (nowDays : Int) (sizeOf : List String → Nat) : List CleanupAction :=
  let actions := retention.foldl (fun acc p =>
    if fs.contains [p.1] then
      acc ++ processTier fs p.1 (nowDays - (p.2 : Int)) sizeOf
    else acc) []
  actions.insertionSort (fun a b => a.dateDays ≤ b.dateDays)

/-- All directories a partitioned path brings into existence (every nonempty
prefix, as `mkdir(parents=True)` creates them). -/
def partitionDirs (p : List String) : List (List String) :=
  (List.range p.length).map (fun i => p.take (i + 1))

/-- A tree with three events partitions, dated 10, 40 and 100 days before
2026-10-12 (2026-10-02, 2026-09-02, 2026-07-04). -/
def exampleCleanupParts : List ((String × String × String) × Timestamp) :=
  [(("raw", "events", "csv_ingestion"), ⟨2026, 10, 2, 0, 0, 0⟩),
   (("raw", "events", "csv_ingestion"), ⟨2026, 9, 2, 0, 0, 0⟩),
   (("raw", "events", "csv_ingestion"), ⟨2026, 7, 4, 0, 0, 0⟩)]

def exampleCleanupFs : List (List String) :=
  (exampleCleanupParts.map (fun q =>
    partitionDirs (create_partitioned_path q.1.1 q.1.2.1 q.1.2.2 q.2))).flatten

/-- A legacy `year=/month=/day=` tree, the only shape the scan recognises. -/
def legacyCleanupFs : List (List String) :=
  [["raw"], ["raw", "year=2020"], ["raw", "year=2020", "month=1"],
   ["raw", "year=2020", "month=1", "day=5"]]

/-! ## `IngestionScheduler._run_job_safe` and the CSV job (scheduler.py)

Job status records keep the fields the claims are about; the `running`
initialiser of `_run_job_safe` is folded with the completion update into the
final record written for the job, and `_save_job_status` is modelled by
copying the table into `saved_status` (the `finally` block runs it on every
path).  A job body either returns a Python value or raises.
-/

/-- Association-list update with Python dict assignment semantics. -/
def setAssoc {β : Type} : List (String × β) → String → β → List (String × β)
  | [], name, v => [(name, v)]
  | p :: rest, name, v =>
    if p.1 == name then (name, v) :: rest else p :: setAssoc rest name v

/-- The Python values a job function can produce: a dict of sub-results
(status strings), a bool, `None`, or any other object. -/
inductive JobRet where
  | dict : List (String × String) → JobRet
  | bool : Bool → JobRet
  | none : JobRet
  | other : JobRet
deriving DecidableEq, Repr

/-- scheduler.py:211-215: a dict result succeeds when every sub-result's
status is 'success'; otherwise `result is not False and result is not None`. -/
def jobRetSuccess : JobRet → Bool
  | .dict rs => rs.all (fun p => p.2 == "success")
  | .bool b => b
  | .none => false
  | .other => true

structure JobStatus where
  status : String
  success_count : Nat
  failure_count : Nat
  last_error : Option String
deriving DecidableEq, Repr

structure SchedulerState where
  jobs_status : List (String × JobStatus)
  saved_status : Option (List (String × JobStatus))
deriving DecidableEq, Repr

/-- The prior cumulative counters carried over by the `running` initialiser
(`self.jobs_status.get(job_name, {}).get(..., 0)`, scheduler.py:198-199). -/
def lookupCounts (tbl : List (String × JobStatus)) (name : String) : Nat × Nat :=
  match tbl.lookup name with
  | some st => (st.success_count, st.failure_count)
  | Option.none => (0, 0)

/-- The record `_run_job_safe` leaves for the job: the `running` initialiser
merged with the success (scheduler.py:218-224), logical-failure (227-233) or
exception (241-247) update. -/
def finalJobStatus (prior : Nat × Nat) (job : Except String JobRet) : JobStatus :=
  match job with
  | .ok result =>
    if jobRetSuccess result then
      ⟨"success", prior.1 + 1, prior.2, Option.none⟩
    else
      ⟨"failed", prior.1, prior.2 + 1, some "Job function returned failure result"⟩
  | .error e => ⟨"error", prior.1, prior.2 + 1, some e⟩

/-- `_run_job_safe` (scheduler.py:188-253): update the job's record and, in
the `finally` block, persist the whole table via `_save_job_status`. -/
def run_job_safe (st : SchedulerState) (name : String)
    (job : Except String JobRet) : SchedulerState :=
  let tbl := setAssoc st.jobs_status name
    (finalJobStatus (lookupCounts st.jobs_status name) job)
  { jobs_status := tbl, saved_status := some tbl }

/-- The method names `class CSVDataIngester` defines (csv_ingester.py). -/
def csvDataIngesterMethods : List String :=
  ["__init__", "_load_config", "setup_directories", "setup_logging",
   "calculate_file_hash", "validate_csv_structure", "ingest_events_csv",
   "ingest_item_properties_csv", "save_ingestion_metadata", "run_full_csv_ingestion"]

/-- Python attribute dispatch `self.csv_ingester.<name>()`: run the method
when the class defines it, raise `AttributeError` otherwise. -/
def callIngesterMethod (methods : List String) (name : String)
    (run : Unit → Except String JobRet) : Except String JobRet :=
  if methods.contains name then run ()
  else .error ("'CSVDataIngester' object has no attribute '" ++ name ++ "'")

/-- `csv_ingestion_job` (scheduler.py:255-258): calls
`self.csv_ingester.run_ingestion()`, whatever that method would do. -/
def csv_ingestion_job (run : Unit → Except String JobRet) : Except String JobRet :=
  callIngesterMethod csvDataIngesterMethods "run_ingestion" run

/-! ## `DataLakeStorageManager.organize_data` and the Latest Pointer

A DataFrame is a column list plus a row list; `organize_data`
(storage_manager.py:158-198) computes a partitioned output path and, only
when the caller-supplied metadata dict is truthy, a sidecar record whose
`size_bytes` comes from the filesystem (`output_file.stat().st_size`, the
`size_bytes` input here) and whose `created_at` is the write timestamp.
The Latest Pointer file written by the CSV ingester after a successful
organize call (csv_ingester.py:281-283) lives in `LakeState`.
-/

structure DataFrame where
  columns : List String
  rows : List (List String)
deriving DecidableEq, Repr

structure FileInfo where
  filename : String
  path : List String
  size_bytes : Nat
  created_at : Timestamp
deriving DecidableEq, Repr

structure DataInfo where
  rows : Nat
  columns : Nat
  data_type : String
  source : String
deriving DecidableEq, Repr

structure SidecarMetadata where
  file_info : FileInfo
  data_info : DataInfo
  metadata : List (String × String)
deriving DecidableEq, Repr

structure OrganizeResult where
  output_file : List String
  sidecar : Option SidecarMetadata
deriving DecidableEq, Repr

/-- `organize_data` (storage_manager.py:158-198) for a write whose parquet
step succeeds: the returned file path, and the sidecar JSON iff
`if metadata:` is truthy (a supplied, non-empty dict). -/
def organize_data (data : DataFrame) (data_type source : String) (timestamp : Timestamp)
    (metadata : Option (List (String × String))) (size_bytes : Nat) : OrganizeResult :=
  let partitioned_path := create_partitioned_path "raw" data_type source timestamp
  let filename := data_type ++ "_" ++ source ++ "_" ++ strftimeCompact timestamp ++ ".parquet"
  let output_file := partitioned_path ++ [filename]
  let sidecar :=
    match metadata with
    | Option.none => Option.none
    | some m =>
      if m.isEmpty then Option.none
      else some
        { file_info := { filename := filename, path := output_file,
                         size_bytes := size_bytes, created_at := timestamp }
          data_info := { rows := data.rows.length, columns := data.columns.length,
                         data_type := data_type, source := source }
          metadata := m }
  { output_file := output_file, sidecar := sidecar }

/-- The per-data-type Latest Pointer files (`<dataType>_latest.<ext>`). -/
structure LakeState where
  latest : List (String × DataFrame)
deriving DecidableEq, Repr

/-- The save sequence of `ingest_events_csv` (csv_ingester.py:264-283): call
`organize_data` (whose outcome — path or raised error — is the `organize`
argument), and only after it returns write the batch to
`<raw_path>/events_latest.parquet`; a raised organize error propagates with
the pointer untouched. -/
def events_save_step (st : LakeState) (batch : DataFrame) (data_type : String)
    (organize : Except String (List String)) : LakeState × Except String (List String) :=
  match organize with
  | .error e => (st, .error e)
  | .ok path => ({ latest := setAssoc st.latest data_type batch }, .ok path)

/-! # Theorems -/

/-! ## Partition paths (C8) -/

theorem digitChar_inj {a b : Nat} (ha : a < 10) (hb : b < 10)
    (h : digitChar a = digitChar b) : a = b := by
  interval_cases a <;> interval_cases b <;> simp_all [digitChar]

theorem strftimeCompact_inj {t1 t2 : Timestamp} (v1 : t1.Valid) (v2 : t2.Valid)
    (h : strftimeCompact t1 = strftimeCompact t2) : t1 = t2 := by
  simp only [strftimeCompact, pad4, pad2, List.cons_append, List.nil_append,
    String.ext_iff, List.cons.injEq, and_true] at h
  obtain ⟨y1, y2, y3, y4, m1, m2, d1, d2, -, h1, h2, n1, n2, s1, s2⟩ := h
  obtain ⟨-, hy2, -, hm2, -, hd2, hh2, hn2, hs2⟩ := v1
  obtain ⟨-, gy2, -, gm2, -, gd2, gh2, gn2, gs2⟩ := v2
  have ey1 := digitChar_inj (Nat.mod_lt _ (by norm_num)) (Nat.mod_lt _ (by norm_num)) y1
  have ey2 := digitChar_inj (Nat.mod_lt _ (by norm_num)) (Nat.mod_lt _ (by norm_num)) y2
  have ey3 := digitChar_inj (Nat.mod_lt _ (by norm_num)) (Nat.mod_lt _ (by norm_num)) y3
  have ey4 := digitChar_inj (Nat.mod_lt _ (by norm_num)) (Nat.mod_lt _ (by norm_num)) y4
  have em1 := digitChar_inj (Nat.mod_lt _ (by norm_num)) (Nat.mod_lt _ (by norm_num)) m1
  have em2 := digitChar_inj (Nat.mod_lt _ (by norm_num)) (Nat.mod_lt _ (by norm_num)) m2
  have ed1 := digitChar_inj (Nat.mod_lt _ (by norm_num)) (Nat.mod_lt _ (by norm_num)) d1
  have ed2 := digitChar_inj (Nat.mod_lt _ (by norm_num)) (Nat.mod_lt _ (by norm_num)) d2
  have eh1 := digitChar_inj (Nat.mod_lt _ (by norm_num)) (Nat.mod_lt _ (by norm_num)) h1
  have eh2 := digitChar_inj (Nat.mod_lt _ (by norm_num)) (Nat.mod_lt _ (by norm_num)) h2
  have en1 := digitChar_inj (Nat.mod_lt _ (by norm_num)) (Nat.mod_lt _ (by norm_num)) n1
  have en2 := digitChar_inj (Nat.mod_lt _ (by norm_num)) (Nat.mod_lt _ (by norm_num)) n2
  have es1 := digitChar_inj (Nat.mod_lt _ (by norm_num)) (Nat.mod_lt _ (by norm_num)) s1
  have es2 := digitChar_inj (Nat.mod_lt _ (by norm_num)) (Nat.mod_lt _ (by norm_num)) s2
  obtain ⟨a, b, c, d, e, f⟩ := t1
  obtain ⟨a', b', c', d', e', f'⟩ := t2
  simp only [Timestamp.mk.injEq]
  simp only at *
  omega

/-- C8: `create_partitioned_path` is a pure, deterministic function of its
arguments yielding the shape `<tier>/source=<source>/type=<dataType>/`
`timestamp=<YYYYMMDD_HHMMSS>` (relative to the configured base path), and for
any two valid timestamps that differ (at second granularity) the produced
paths differ. -/
theorem claim_C8_create_partitioned_path (base_dir data_type source : String)
    (t1 t2 : Timestamp) (v1 : t1.Valid) (v2 : t2.Valid) :
    create_partitioned_path base_dir data_type source t1 =
      [base_dir, "source=" ++ source, "type=" ++ data_type,
       "timestamp=" ++ strftimeCompact t1] ∧
    (t1 ≠ t2 →
      create_partitioned_path base_dir data_type source t1 ≠
        create_partitioned_path base_dir data_type source t2) := by
  refine ⟨rfl, fun hne heq => hne ?_⟩
  simp only [create_partitioned_path, List.cons.injEq, and_true] at heq
  obtain ⟨-, -, -, hts⟩ := heq
  have hd := congrArg String.data hts
  rw [String.data_append, String.data_append] at hd
  exact strftimeCompact_inj v1 v2 (String.ext (List.append_cancel_left hd))

/-- Witness for C8 at concrete inputs: the events partition for
2025-01-02 03:04:05 has the documented shape, and moving the timestamp one
second later changes the path. -/
theorem claim_C8_create_partitioned_path_witness :
    create_partitioned_path "raw" "events" "csv_ingestion" ⟨2025, 1, 2, 3, 4, 5⟩ =
      ["raw", "source=csv_ingestion", "type=events", "timestamp=20250102_030405"] ∧
    create_partitioned_path "raw" "events" "csv_ingestion" ⟨2025, 1, 2, 3, 4, 5⟩ ≠
      create_partitioned_path "raw" "events" "csv_ingestion" ⟨2025, 1, 2, 3, 4, 6⟩ := by
  have h := claim_C8_create_partitioned_path "raw" "events" "csv_ingestion"
    ⟨2025, 1, 2, 3, 4, 5⟩ ⟨2025, 1, 2, 3, 4, 6⟩ (by decide) (by decide)
  exact ⟨h.1.trans (by decide), h.2 (by decide)⟩

/-! ## Keep-last deduplication (C7) -/

theorem all_range_getD (l : List PropRow) (f : PropRow → Bool) :
    (List.range l.length).all (fun k => f (l.getD k defaultRow)) = l.all f := by
  induction l with
  | nil => rfl
  | cons r rest ih =>
    simp only [List.length_cons, List.range_succ_eq_map, List.all_cons, List.all_map,
      Function.comp_def, Nat.succ_eq_add_one, List.getD_cons_zero, List.getD_cons_succ, ih]

theorem isLastOcc_cons_succ (r : PropRow) (rest : List PropRow) (j : Nat) :
    isLastOcc (r :: rest) (j + 1) = isLastOcc rest j := by
  unfold isLastOcc
  simp only [List.length_cons, List.range_succ_eq_map, List.all_cons, List.all_map,
    Function.comp_def, Nat.succ_eq_add_one, List.getD_cons_zero, List.getD_cons_succ,
    Nat.zero_le, decide_True, Bool.true_or, Bool.true_and, Nat.add_le_add_iff_right]

theorem isLastOcc_cons_zero (r : PropRow) (rest : List PropRow) :
    isLastOcc (r :: rest) 0 = !(rest.any (fun s => propKey s == propKey r)) := by
  unfold isLastOcc
  simp only [List.length_cons, List.range_succ_eq_map, List.all_cons, List.all_map,
    Function.comp_def, Nat.succ_eq_add_one, List.getD_cons_zero, List.getD_cons_succ,
    Nat.le_zero, decide_True, Bool.true_or, Bool.true_and]
  have h := all_range_getD rest (fun s => !(propKey s == propKey r))
  simp only at h
  rw [show (fun x => decide (x + 1 = 0) || !(propKey (rest.getD x defaultRow) == propKey r))
      = (fun x => !(propKey (rest.getD x defaultRow) == propKey r)) from by funext x; simp]
  rw [h, List.all_eq_not_any_not]
  simp

theorem keep_last_eq_filter (rows : List PropRow) :
    drop_duplicates_keep_last rows =
      ((List.range rows.length).filter (fun i => isLastOcc rows i)).map
        (fun i => rows.getD i defaultRow) := by
  induction rows with
  | nil => rfl
  | cons r rest ih =>
    have htail :
        ((((List.range rest.length).map Nat.succ)).filter
            (fun i => isLastOcc (r :: rest) i)).map
              (fun i => (r :: rest).getD i defaultRow)
          = drop_duplicates_keep_last rest := by
      rw [List.filter_map, List.map_map, ih]
      simp only [Function.comp_def, Nat.succ_eq_add_one, isLastOcc_cons_succ,
        List.getD_cons_succ]
    rw [List.length_cons, List.range_succ_eq_map, drop_duplicates_keep_last,
      List.filter_cons]
    by_cases hdup : rest.any (fun s => propKey s == propKey r) = true
    · rw [if_pos hdup]
      rw [show isLastOcc (r :: rest) 0 = false from by
        rw [isLastOcc_cons_zero, hdup]; rfl]
      simpa using htail.symm
    · rw [if_neg hdup]
      rw [show isLastOcc (r :: rest) 0 = true from by
        rw [isLastOcc_cons_zero, Bool.eq_false_iff.mpr hdup]; rfl]
      simp only [if_true, List.map_cons, List.getD_cons_zero]
      rw [htail]

theorem keep_last_sublist (rows : List PropRow) :
    (drop_duplicates_keep_last rows).Sublist rows := by
  induction rows with
  | nil => exact List.Sublist.refl _
  | cons r rest ih =>
    rw [drop_duplicates_keep_last]
    by_cases hdup : rest.any (fun s => propKey s == propKey r) = true
    · rw [if_pos hdup]; exact ih.trans (List.sublist_cons_self r rest)
    · rw [if_neg hdup]; exact ih.cons₂ r

/-- C7: key-subset deduplication keeps exactly the rows at last-occurrence
positions of their (itemid, property) key, in original order (the output is
the subsequence of the input at exactly those indices); for two rows with the
same key only the later survives; and `duplicates_removed` is the input row
count minus the output row count. -/
theorem claim_C7_key_subset_dedup (rows : List PropRow) (r s : PropRow)
    (hk : propKey r = propKey s) :
    (ingest_item_properties_dedup rows).1 =
      ((List.range rows.length).filter (fun i => isLastOcc rows i)).map
        (fun i => rows.getD i defaultRow) ∧
    ((ingest_item_properties_dedup rows).1).Sublist rows ∧
    (ingest_item_properties_dedup [r, s]).1 = [s] ∧
    (ingest_item_properties_dedup rows).2 =
      rows.length - ((ingest_item_properties_dedup rows).1).length := by
  refine ⟨keep_last_eq_filter rows, keep_last_sublist rows, ?_, rfl⟩
  simp only [ingest_item_properties_dedup, drop_duplicates_keep_last, List.any_cons,
    List.any_nil, Bool.or_false]
  rw [show (propKey s == propKey r) = true from by
    rw [beq_iff_eq]; exact hk.symm]
  simp [drop_duplicates_keep_last]

/-- Witness for C7: a concrete three-row batch where item 1's "color" appears
twice; only the later "green" row survives, at its original position after the
item-2 row, and one duplicate is reported removed. -/
theorem claim_C7_key_subset_dedup_witness :
    propKey ⟨1, "p", "a"⟩ = propKey ⟨1, "p", "b"⟩ ∧
    (ingest_item_properties_dedup
        [⟨1, "color", "red"⟩, ⟨2, "color", "blue"⟩, ⟨1, "color", "green"⟩]).1 =
      [⟨2, "color", "blue"⟩, ⟨1, "color", "green"⟩] ∧
    (ingest_item_properties_dedup
        [⟨1, "color", "red"⟩, ⟨2, "color", "blue"⟩, ⟨1, "color", "green"⟩]).2 = 1 ∧
    (ingest_item_properties_dedup [⟨1, "p", "a"⟩, ⟨1, "p", "b"⟩]).1 = [⟨1, "p", "b"⟩] := by
  have h := claim_C7_key_subset_dedup
    [⟨1, "color", "red"⟩, ⟨2, "color", "blue"⟩, ⟨1, "color", "green"⟩]
    ⟨1, "p", "a"⟩ ⟨1, "p", "b"⟩ (by decide)
  exact ⟨by decide, h.1.trans (by decide), by decide, h.2.2.1⟩

/-! ## Retry loops (C3, C5, C6)

The helper lemmas are stated for `make_api_request_go fuel attempt` under the
invariant `fuel + attempt = N + 1` that holds at the entry call
`make_api_request_go N d outcomes N 1` and is preserved by the recursion,
and analogously for the CSV recursion.
-/

theorem go_all_transient (N d : Nat) (outcomes : Nat → SessionOutcome) :
    ∀ fuel attempt, fuel + attempt = N + 1 → 1 ≤ attempt →
      (∀ k, attempt ≤ k → k ≤ N → (outcomes k).Transient) →
      (make_api_request_go N d outcomes fuel attempt).success = false ∧
      (make_api_request_go N d outcomes fuel attempt).attempts = fuel ∧
      (1 ≤ fuel → ∀ e, outcomes N = .exn e →
        (make_api_request_go N d outcomes fuel attempt).error = "Request exception: " ++ e) := by
  intro fuel
  induction fuel with
  | zero => intro attempt h1 h2 _; exact ⟨rfl, rfl, by omega⟩
  | succ fuel ih =>
    intro attempt h1 h2 htrans
    have hle : attempt ≤ N := by omega
    have ht := htrans attempt le_rfl hle
    unfold make_api_request_go
    cases ho : outcomes attempt with
    | response code text =>
      rw [ho] at ht
      have hc : code = 429 := ht
      subst hc
      simp only [if_neg (by omega : ¬(429 = 200)), if_pos rfl]
      have := ih (attempt + 1) (by omega) (by omega)
        (fun k hk1 hk2 => htrans k (by omega) hk2)
      refine ⟨this.1, by simp [this.2.1], ?_⟩
      intro _ e he
      by_cases hfz : fuel = 0
      · exfalso
        have hAN : attempt = N := by omega
        have he' : outcomes attempt = SessionOutcome.exn e := by rw [hAN]; exact he
        exact absurd (ho.symm.trans he') (by simp)
      · exact this.2.2 (by omega) e he
    | exn e' =>
      simp only
      by_cases hlt : attempt < N
      · rw [if_pos hlt]
        have := ih (attempt + 1) (by omega) (by omega)
          (fun k hk1 hk2 => htrans k (by omega) hk2)
        refine ⟨this.1, by simp [this.2.1], ?_⟩
        intro _ e he
        exact this.2.2 (by omega) e he
      · rw [if_neg hlt]
        have hAN : attempt = N := by omega
        have hf0 : fuel = 0 := by omega
        subst hf0
        refine ⟨rfl, rfl, ?_⟩
        intro _ e he
        have he' : outcomes attempt = SessionOutcome.exn e := by rw [hAN]; exact he
        cases ho.symm.trans he'
        rfl

theorem go_success_at (N d : Nat) (outcomes : Nat → SessionOutcome) (K : Nat) (body : String)
    (hK : outcomes K = .response 200 body) (hKN : K ≤ N) :
    ∀ fuel attempt, fuel + attempt = N + 1 → 1 ≤ attempt → attempt ≤ K →
      (∀ k, attempt ≤ k → k < K → (outcomes k).Transient) →
      (make_api_request_go N d outcomes fuel attempt).success = true ∧
      (make_api_request_go N d outcomes fuel attempt).data = some body ∧
      (make_api_request_go N d outcomes fuel attempt).attempts = K + 1 - attempt := by
  intro fuel
  induction fuel with
  | zero => intro attempt h1 _ h3 _; exact absurd h1 (by omega)
  | succ fuel ih =>
    intro attempt h1 h2 h3 htrans
    unfold make_api_request_go
    by_cases hAK : attempt = K
    · subst hAK
      rw [hK]
      simp only [if_pos rfl]
      refine ⟨rfl, rfl, ?_⟩
      show 1 = attempt + 1 - attempt
      omega
    · have hlt : attempt < K := by omega
      have ht := htrans attempt le_rfl hlt
      cases ho : outcomes attempt with
      | response code text =>
        rw [ho] at ht
        have hc : code = 429 := ht
        subst hc
        simp only [if_neg (by omega : ¬(429 = 200)), if_pos rfl]
        have := ih (attempt + 1) (by omega) (by omega) (by omega)
          (fun k hk1 hk2 => htrans k (by omega) hk2)
        exact ⟨this.1, this.2.1, by simp [this.2.2]; omega⟩
      | exn e' =>
        simp only
        rw [if_pos (by omega)]
        have := ih (attempt + 1) (by omega) (by omega) (by omega)
          (fun k hk1 hk2 => htrans k (by omega) hk2)
        exact ⟨this.1, this.2.1, by simp [this.2.2]; omega⟩

theorem go_terminal_at (N d : Nat) (outcomes : Nat → SessionOutcome) (K code : Nat)
    (text : String) (hK : outcomes K = .response code text)
    (h200 : code ≠ 200) (h429 : code ≠ 429) (hKN : K ≤ N) :
    ∀ fuel attempt, fuel + attempt = N + 1 → 1 ≤ attempt → attempt ≤ K →
      (∀ k, attempt ≤ k → k < K → (outcomes k).Transient) →
      (make_api_request_go N d outcomes fuel attempt).success = false ∧
      (make_api_request_go N d outcomes fuel attempt).error =
        "HTTP " ++ toString code ++ ": " ++ text ∧
      (make_api_request_go N d outcomes fuel attempt).attempts = K + 1 - attempt := by
  intro fuel
  induction fuel with
  | zero => intro attempt h1 _ h3 _; exact absurd h1 (by omega)
  | succ fuel ih =>
    intro attempt h1 h2 h3 htrans
    unfold make_api_request_go
    by_cases hAK : attempt = K
    · subst hAK
      rw [hK]
      simp only [if_neg h200, if_neg h429]
      refine ⟨trivial, trivial, ?_⟩
      show 1 = attempt + 1 - attempt
      omega
    · have hlt : attempt < K := by omega
      have ht := htrans attempt le_rfl hlt
      cases ho : outcomes attempt with
      | response c2 t2 =>
        rw [ho] at ht
        have hc : c2 = 429 := ht
        subst hc
        simp only [if_neg (by omega : ¬(429 = 200)), if_pos rfl]
        have := ih (attempt + 1) (by omega) (by omega) (by omega)
          (fun k hk1 hk2 => htrans k (by omega) hk2)
        exact ⟨this.1, this.2.1, by simp [this.2.2]; omega⟩
      | exn e' =>
        simp only
        rw [if_pos (by omega)]
        have := ih (attempt + 1) (by omega) (by omega) (by omega)
          (fun k hk1 hk2 => htrans k (by omega) hk2)
        exact ⟨this.1, this.2.1, by simp [this.2.2]; omega⟩

theorem go_sleeps_linear (N d : Nat) (outcomes : Nat → SessionOutcome) :
    ∀ fuel attempt j v,
      (make_api_request_go N d outcomes fuel attempt).sleeps.get? j = some v →
      v = d * (attempt + j) := by
  intro fuel
  induction fuel with
  | zero => intro attempt j v h; simp [make_api_request_go, allFailedTrace] at h
  | succ fuel ih =>
    intro attempt j v h
    unfold make_api_request_go at h
    cases ho : outcomes attempt with
    | response code text =>
      simp only [ho] at h
      by_cases h200 : code = 200
      · rw [if_pos h200] at h; simp at h
      · rw [if_neg h200] at h
        by_cases h429 : code = 429
        · rw [if_pos h429] at h
          cases j with
          | zero =>
            simp only [List.get?_cons_zero, Option.some.injEq] at h
            simpa using h.symm
          | succ j =>
            simp only [List.get?_cons_succ] at h
            have hv := ih (attempt + 1) j v h
            rw [hv]; congr 1; omega
        · rw [if_neg h429] at h; simp at h
    | exn e =>
      simp only [ho] at h
      by_cases hlt : attempt < N
      · rw [if_pos hlt] at h
        cases j with
        | zero =>
          simp only [List.get?_cons_zero, Option.some.injEq] at h
          simpa using h.symm
        | succ j =>
          simp only [List.get?_cons_succ] at h
          have hv := ih (attempt + 1) j v h
          rw [hv]; congr 1; omega
      · rw [if_neg hlt] at h; simp at h

theorem csv_go_all_fail (M D : Nat) (outcomes : Nat → Except String Unit)
    (msgs : Nat → String) (hfail : ∀ k, outcomes k = .error (msgs k)) :
    ∀ fuel rc, fuel + rc = M + 1 →
      (ingest_events_csv_go M D outcomes fuel rc).status = false ∧
      (ingest_events_csv_go M D outcomes fuel rc).attempts = fuel ∧
      (1 ≤ fuel → (ingest_events_csv_go M D outcomes fuel rc).errors =
        ["Error ingesting events CSV: " ++ msgs M]) := by
  intro fuel
  induction fuel with
  | zero => intro rc h1; exact ⟨rfl, rfl, by omega⟩
  | succ fuel ih =>
    intro rc h1
    unfold ingest_events_csv_go
    simp only [hfail rc]
    by_cases hlt : rc < M
    · rw [if_pos hlt]
      have := ih (rc + 1) (by omega)
      exact ⟨this.1, by simp [this.2.1], fun _ => this.2.2 (by omega)⟩
    · rw [if_neg hlt]
      have hrc : rc = M := by omega
      have hf0 : fuel = 0 := by omega
      subst hrc
      subst hf0
      exact ⟨rfl, rfl, fun _ => rfl⟩

theorem csv_go_success_at (M D : Nat) (outcomes : Nat → Except String Unit) (K : Nat)
    (hK : outcomes K = .ok ()) (hKM : K ≤ M)
    (hbefore : ∀ k, k < K → ∃ e, outcomes k = .error e) :
    ∀ fuel rc, fuel + rc = M + 1 → rc ≤ K →
      (ingest_events_csv_go M D outcomes fuel rc).status = true ∧
      (ingest_events_csv_go M D outcomes fuel rc).attempts = K + 1 - rc := by
  intro fuel
  induction fuel with
  | zero => intro rc h1 h2; exact absurd h1 (by omega)
  | succ fuel ih =>
    intro rc h1 h2
    unfold ingest_events_csv_go
    by_cases hrK : rc = K
    · subst hrK
      rw [hK]
      refine ⟨rfl, ?_⟩
      show 1 = rc + 1 - rc
      omega
    · obtain ⟨e, he⟩ := hbefore rc (by omega)
      simp only [he]
      rw [if_pos (by omega)]
      have := ih (rc + 1) (by omega) (by omega)
      exact ⟨this.1, by simp [this.2]; omega⟩

theorem csv_go_sleeps_const (M D : Nat) (outcomes : Nat → Except String Unit) :
    ∀ fuel rc j v,
      (ingest_events_csv_go M D outcomes fuel rc).sleeps.get? j = some v → v = D := by
  intro fuel
  induction fuel with
  | zero => intro rc j v h; simp [ingest_events_csv_go] at h
  | succ fuel ih =>
    intro rc j v h
    unfold ingest_events_csv_go at h
    cases ho : outcomes rc with
    | ok u => cases u; simp only [ho] at h; simp at h
    | error e =>
      simp only [ho] at h
      by_cases hlt : rc < M
      · rw [if_pos hlt] at h
        cases j with
        | zero =>
          simp only [List.get?_cons_zero, Option.some.injEq] at h
          exact h.symm
        | succ j =>
          simp only [List.get?_cons_succ] at h
          exact ih (rc + 1) j v h
      · rw [if_neg hlt] at h; simp at h

/-- C3 (amended): with `retry_attempts = N`, `make_api_request` performs
exactly N attempts against an always-transient operation and fails (carrying
the last exception message when the final attempt raised), and returns
success after exactly K attempts when attempt K ≤ N succeeds; the CSV
ingester's recursive retry instead performs exactly N + 1 attempts (the
initial call plus N retries) against an always-failing operation, failing
with the last error, and success on 0-based retry KC ≤ N takes exactly
KC + 1 attempts. -/
theorem claim_C3_retry_attempt_counts (N d D K KC : Nat) (body : String)
    (outA outA2 : Nat → SessionOutcome) (outC outC2 : Nat → Except String Unit)
    (msgs : Nat → String) (hN : 1 ≤ N)
    (htransA : ∀ k, 1 ≤ k → k ≤ N → (outA k).Transient)
    (hA2K : outA2 K = .response 200 body) (hK1 : 1 ≤ K) (hKN : K ≤ N)
    (hA2before : ∀ k, 1 ≤ k → k < K → (outA2 k).Transient)
    (hCfail : ∀ k, outC k = .error (msgs k))
    (hC2K : outC2 KC = .ok ()) (hKCM : KC ≤ N)
    (hC2before : ∀ k, k < KC → ∃ e, outC2 k = .error e) :
    ((make_api_request N d outA).success = false ∧
     (make_api_request N d outA).attempts = N ∧
     (∀ e, outA N = .exn e →
       (make_api_request N d outA).error = "Request exception: " ++ e)) ∧
    ((make_api_request N d outA2).success = true ∧
     (make_api_request N d outA2).data = some body ∧
     (make_api_request N d outA2).attempts = K) ∧
    ((ingest_events_csv N D outC).status = false ∧
     (ingest_events_csv N D outC).attempts = N + 1 ∧
     (ingest_events_csv N D outC).errors =
       ["Error ingesting events CSV: " ++ msgs N]) ∧
    ((ingest_events_csv N D outC2).status = true ∧
     (ingest_events_csv N D outC2).attempts = KC + 1) := by
  have h1 := go_all_transient N d outA N 1 (by omega) (by omega)
    (fun k hk1 hk2 => htransA k hk1 hk2)
  have h2 := go_success_at N d outA2 K body hA2K hKN N 1 (by omega) (by omega) hK1
    (fun k hk1 hk2 => hA2before k hk1 hk2)
  have h3 := csv_go_all_fail N D outC msgs hCfail (N + 1) 0 (by omega)
  have h4 := csv_go_success_at N D outC2 KC hC2K hKCM hC2before (N + 1) 0 (by omega)
    (by omega)
  refine ⟨⟨h1.1, h1.2.1, fun e he => h1.2.2 (by omega) e he⟩,
          ⟨h2.1, h2.2.1, by rw [make_api_request, h2.2.2]; omega⟩,
          ⟨h3.1, h3.2.1, h3.2.2 (by omega)⟩,
          ⟨h4.1, by rw [ingest_events_csv, h4.2]; omega⟩⟩

/-- Witness for C3 (amended) at `retry_attempts = 3`: an always-raising API
request fails after exactly 3 attempts with the last exception message; one
succeeding on attempt 2 stops there; an always-failing CSV ingestion makes
4 attempts; one succeeding on its third attempt stops after 3. -/
theorem claim_C3_retry_attempt_counts_witness :
    ((make_api_request 3 5 (fun _ => .exn "timeout")).success = false ∧
     (make_api_request 3 5 (fun _ => .exn "timeout")).attempts = 3 ∧
     (make_api_request 3 5 (fun _ => .exn "timeout")).error = "Request exception: timeout") ∧
    ((make_api_request 3 5
        (fun k => if k < 2 then .exn "t" else .response 200 "DATA")).success = true ∧
     (make_api_request 3 5
        (fun k => if k < 2 then .exn "t" else .response 200 "DATA")).attempts = 2) ∧
    ((ingest_events_csv 3 7 (fun _ => .error "boom")).status = false ∧
     (ingest_events_csv 3 7 (fun _ => .error "boom")).attempts = 4) ∧
    ((ingest_events_csv 3 7
        (fun k => if k < 2 then .error "x" else .ok ())).status = true ∧
     (ingest_events_csv 3 7
        (fun k => if k < 2 then .error "x" else .ok ())).attempts = 3) := by
  have h := claim_C3_retry_attempt_counts 3 5 7 2 2 "DATA"
    (fun _ => .exn "timeout") (fun k => if k < 2 then .exn "t" else .response 200 "DATA")
    (fun _ => .error "boom") (fun k => if k < 2 then .error "x" else .ok ())
    (fun _ => "boom")
    (by omega)
    (fun k _ _ => trivial)
    rfl (by omega) (by omega)
    (fun k hk1 hk2 => by interval_cases k; trivial)
    (fun k => rfl)
    rfl (by omega)
    (fun k hk => by interval_cases k <;> exact ⟨"x", rfl⟩)
  exact ⟨⟨h.1.1, h.1.2.1, h.1.2.2 "timeout" rfl⟩,
         ⟨h.2.1.1, h.2.1.2.2⟩,
         ⟨h.2.2.1.1, h.2.2.1.2.1⟩,
         ⟨h.2.2.2.1, h.2.2.2.2⟩⟩

/-- Counterexample to C3 as stated: with configured `retry_attempts = 3` the
CSV ingester's recursive retry performs 4 attempts against an always-failing
operation, not 3. -/
theorem claim_C3_counterexample :
    (ingest_events_csv 3 5 (fun _ => .error "events file not found")).attempts = 4 ∧
    ¬ (ingest_events_csv 3 5 (fun _ => .error "events file not found")).attempts = 3 := by
  decide

/-- C5 (amended): `make_api_request` retries HTTP 429 responses and request
exceptions up to the configured attempt ceiling, surfacing failure only after
exhaustion, but any response whose status is neither 200 nor 429 — including
every 5xx response that reaches the loop's status check — causes an immediate
failure return with no further attempts. -/
theorem claim_C5_outcome_classification (N d K code : Nat) (text : String)
    (outT outB : Nat → SessionOutcome)
    (htrans : ∀ k, 1 ≤ k → k ≤ N → (outT k).Transient)
    (hB : outB K = .response code text) (h200 : code ≠ 200) (h429 : code ≠ 429)
    (hK1 : 1 ≤ K) (hKN : K ≤ N)
    (hBbefore : ∀ k, 1 ≤ k → k < K → (outB k).Transient) :
    ((make_api_request N d outT).success = false ∧
     (make_api_request N d outT).attempts = N) ∧
    ((make_api_request N d outB).success = false ∧
     (make_api_request N d outB).error = "HTTP " ++ toString code ++ ": " ++ text ∧
     (make_api_request N d outB).attempts = K) := by
  have h1 := go_all_transient N d outT N 1 (by omega) (by omega)
    (fun k hk1 hk2 => htrans k hk1 hk2)
  have h2 := go_terminal_at N d outB K code text hB h200 h429 hKN N 1 (by omega)
    (by omega) hK1 (fun k hk1 hk2 => hBbefore k hk1 hk2)
  exact ⟨⟨h1.1, h1.2.1⟩,
         ⟨h2.1, h2.2.1, by rw [make_api_request, h2.2.2]; omega⟩⟩

/-- Witness for C5 (amended): always-429 exhausts all 3 attempts; a 500
response on the first attempt fails immediately after 1 attempt. -/
theorem claim_C5_outcome_classification_witness :
    ((make_api_request 3 5 (fun _ => .response 429 "slow down")).success = false ∧
     (make_api_request 3 5 (fun _ => .response 429 "slow down")).attempts = 3) ∧
    ((make_api_request 3 5 (fun _ => .response 500 "Internal")).success = false ∧
     (make_api_request 3 5 (fun _ => .response 500 "Internal")).error = "HTTP 500: Internal" ∧
     (make_api_request 3 5 (fun _ => .response 500 "Internal")).attempts = 1) := by
  have h := claim_C5_outcome_classification 3 5 1 500 "Internal"
    (fun _ => .response 429 "slow down") (fun _ => .response 500 "Internal")
    (fun k _ _ => rfl) rfl (by omega) (by omega) (by omega) (by omega)
    (fun k hk1 hk2 => absurd (hk1.trans_lt hk2) (by omega))
  exact h

/-- Counterexample to C5 as stated: an HTTP 500 response is not retried —
with `retry_attempts = 3` the request fails after a single attempt. -/
theorem claim_C5_counterexample :
    (make_api_request 3 5 (fun _ => .response 500 "Internal Server Error")).attempts = 1 ∧
    (make_api_request 3 5 (fun _ => .response 500 "Internal Server Error")).success = false ∧
    ¬ (make_api_request 3 5 (fun _ => .response 500 "Internal Server Error")).attempts = 3 := by
  decide

/-- C6 (amended): in the API request loop the j-th delay slept (0-based, so
between attempts j+1 and j+2) is `retry_delay * (j + 1)` — linear backoff —
while every delay slept by the CSV ingester's retry path is the constant
`retry_delay`. -/
theorem claim_C6_backoff_delays (N d M D j v j2 v2 : Nat)
    (outA : Nat → SessionOutcome) (outC : Nat → Except String Unit)
    (hA : (make_api_request N d outA).sleeps.get? j = some v)
    (hC : (ingest_events_csv M D outC).sleeps.get? j2 = some v2) :
    v = d * (j + 1) ∧ v2 = D := by
  have h1 := go_sleeps_linear N d outA N 1 j v hA
  have h2 := csv_go_sleeps_const M D outC (M + 1) 0 j2 v2 hC
  exact ⟨by rw [h1]; congr 1; omega, h2⟩

/-- Witness for C6 (amended): with `retry_delay = 5`, an always-429 API run
sleeps 10 between attempts 2 and 3, while the CSV run sleeps 5 there. -/
theorem claim_C6_backoff_delays_witness :
    (make_api_request 3 5 (fun _ => .response 429 "x")).sleeps.get? 1 = some 10 ∧
    (10 : Nat) = 5 * (1 + 1) ∧
    (ingest_events_csv 3 5 (fun _ => .error "boom")).sleeps.get? 1 = some 5 ∧
    (5 : Nat) = 5 := by
  have h := claim_C6_backoff_delays 3 5 3 5 1 10 1 5
    (fun _ => .response 429 "x") (fun _ => .error "boom") (by decide) (by decide)
  exact ⟨by decide, h.1, by decide, h.2⟩

/-- Counterexample to C6 as stated: with `retry_delay = 5` the CSV retry
path's delay between attempt 2 and attempt 3 is 5, not `5 * 2`. -/
theorem claim_C6_counterexample :
    (ingest_events_csv 3 5 (fun _ => .error "boom")).sleeps.get? 1 = some 5 ∧
    ¬ (5 : Nat) = 5 * 2 := by decide

/-! ## Association-table updates (shared by the scheduler and the pointer) -/

theorem lookup_setAssoc {β : Type} (l : List (String × β)) (name : String) (v : β) :
    (setAssoc l name v).lookup name = some v := by
  induction l with
  | nil => simp [setAssoc, List.lookup]
  | cons p rest ih =>
    by_cases h : p.1 == name
    · simp only [setAssoc, if_pos h, List.lookup, beq_self_eq_true]
    · simp only [setAssoc, if_neg h, List.lookup]
      have hne : (name == p.1) = false := by
        rw [beq_eq_false_iff_ne]
        simp only [beq_iff_eq] at h
        exact fun e => h (Eq.symm e)
      rw [hne]
      exact ih

/-! ## Retention cleanup (C1) -/

theorem foldl_fixed_point {α β : Type} (f : α → β → α) (l : List β) (a : α)
    (hf : ∀ x b, f x b = x) : l.foldl f a = a := by
  induction l generalizing a with
  | nil => rfl
  | cons b rest ih => rw [List.foldl_cons, hf]; exact ih a

theorem cleanup_no_year_dirs (retention : List (String × Nat))
    (fs : List (List String)) (nowDays : Int) (sizeOf : List String → Nat)
    (h : ∀ e ∈ fs, nameMatches "year=" e = false) :
    cleanup_old_data retention fs nowDays sizeOf = [] := by
  have hyd : ∀ tier cutoff, processTier fs tier cutoff sizeOf = [] := by
    intro tier cutoff
    unfold processTier rglobDirs
    rw [List.filter_eq_nil_iff.mpr]
    · rfl
    · intro e he
      simp only [Bool.and_eq_true, not_and]
      intro _
      simp [h e he]
  unfold cleanup_old_data
  rw [foldl_fixed_point _ _ _ (fun x p => by rw [hyd]; simp)]
  rfl

theorem nameMatches_partitionDirs (pre base dt src : String) (t : Timestamp)
    (hb : pre.data.isPrefixOf base.data = false)
    (hs : pre.data.isPrefixOf ("source=" ++ src).data = false)
    (hty : pre.data.isPrefixOf ("type=" ++ dt).data = false)
    (hts : pre.data.isPrefixOf ("timestamp=" ++ strftimeCompact t).data = false) :
    ∀ e ∈ partitionDirs (create_partitioned_path base dt src t),
      nameMatches pre e = false := by
  intro e he
  have hdirs : partitionDirs (create_partitioned_path base dt src t) =
      [[base], [base, "source=" ++ src], [base, "source=" ++ src, "type=" ++ dt],
       create_partitioned_path base dt src t] := rfl
  rw [hdirs] at he
  simp only [List.mem_cons, List.not_mem_nil, or_false] at he
  rcases he with h | h | h | h
  · subst h; exact hb
  · subst h; exact hs
  · subst h; exact hty
  · subst h; exact hts

/-- C1 (code bug): on every tree consisting of partitions produced by
`create_partitioned_path` (tier names not themselves of the form `year=...`),
`cleanup_old_data` collects no deletion candidates at all, for every retention
configuration and every clock value — the scan only recognises the legacy
`year=/month=/day=` layout, which the partitioning scheme never creates. -/
theorem claim_C1_cleanup_scans_wrong_scheme (retention : List (String × Nat))
    (nowDays : Int) (sizeOf : List String → Nat)
    (parts : List ((String × String × String) × Timestamp))
    (hbase : ∀ q ∈ parts, "year=".data.isPrefixOf (q.1.1 : String).data = false) :
    cleanup_old_data retention
      ((parts.map (fun q =>
        partitionDirs (create_partitioned_path q.1.1 q.1.2.1 q.1.2.2 q.2))).flatten)
      nowDays sizeOf = [] := by
  apply cleanup_no_year_dirs
  intro e he
  rw [List.mem_flatten] at he
  obtain ⟨l, hl, hel⟩ := he
  rw [List.mem_map] at hl
  obtain ⟨q, hq, rfl⟩ := hl
  exact nameMatches_partitionDirs "year=" q.1.1 q.1.2.1 q.1.2.2 q.2
    (hbase q hq) rfl rfl rfl e hel

/-- Witness for C1 at the failing input of the claim: the tree with events
partitions dated 10, 40 and 100 days before 2026-10-12 under
`retention_days = {raw: 90}` yields no candidates — in particular not the
100-day partition the claim requires — while the same scan does find a legacy
`year=2020/month=1/day=5` partition, confirming the scan itself works on the
layout it was written for. -/
theorem claim_C1_cleanup_scans_wrong_scheme_witness :
    (∀ q ∈ exampleCleanupParts, "year=".data.isPrefixOf (q.1.1 : String).data = false) ∧
    cleanup_old_data [("raw", 90)] exampleCleanupFs (daysFromCivil 2026 10 12)
      (fun _ => 0) = [] ∧
    cleanup_old_data [("raw", 90)] exampleCleanupFs (daysFromCivil 2026 10 12)
      (fun _ => 0) ≠
      [{ path := create_partitioned_path "raw" "events" "csv_ingestion" ⟨2026, 7, 4, 0, 0, 0⟩,
         dateDays := daysFromCivil 2026 7 4, tier := "raw", size := 0 }] ∧
    cleanup_old_data [("raw", 90)] legacyCleanupFs (daysFromCivil 2026 10 12)
      (fun _ => 7) =
      [{ path := ["raw", "year=2020", "month=1", "day=5"],
         dateDays := daysFromCivil 2020 1 5, tier := "raw", size := 7 }] := by
  have h := claim_C1_cleanup_scans_wrong_scheme [("raw", 90)]
    (daysFromCivil 2026 10 12) (fun _ => 0) exampleCleanupParts (by decide)
  exact ⟨by decide, h, by decide, by decide⟩

/-! ## Scheduler job runner (C2, C9) -/

/-- C2: `CSVDataIngester` defines no method named `run_ingestion`, so
`csv_ingestion_job` raises `AttributeError` regardless of what the pipeline
method would have returned, and every `_run_job_safe` invocation of it ends
in the error branch: final status 'error' with `failure_count` incremented
and `success_count` unchanged — no scheduled CSV run can record 'success'. -/
theorem claim_C2_csv_job_always_errors (run : Unit → Except String JobRet)
    (st : SchedulerState) :
    csvDataIngesterMethods.contains "run_ingestion" = false ∧
    csv_ingestion_job run =
      .error "'CSVDataIngester' object has no attribute 'run_ingestion'" ∧
    ∃ fs, ((run_job_safe st "csv_ingestion" (csv_ingestion_job run)).jobs_status).lookup
        "csv_ingestion" = some fs ∧
      fs.status = "error" ∧
      fs.failure_count = (lookupCounts st.jobs_status "csv_ingestion").2 + 1 ∧
      fs.success_count = (lookupCounts st.jobs_status "csv_ingestion").1 := by
  refine ⟨by decide, rfl, ?_⟩
  exact ⟨_, lookup_setAssoc _ _ _, rfl, rfl, rfl⟩

/-- C9: whatever a job run through `_run_job_safe` does — succeed, return a
failure result, or throw — its record ends in a final state among
{success, failed, error}, exactly one of the cumulative counters is
incremented by one, and the full status table is persisted (the `finally`
branch runs on every path). -/
theorem claim_C9_run_job_safe_invariants (st : SchedulerState) (name : String)
    (job : Except String JobRet) :
    ∃ fs, ((run_job_safe st name job).jobs_status).lookup name = some fs ∧
      (fs.status = "success" ∨ fs.status = "failed" ∨ fs.status = "error") ∧
      ((fs.success_count = (lookupCounts st.jobs_status name).1 + 1 ∧
        fs.failure_count = (lookupCounts st.jobs_status name).2) ∨
       (fs.success_count = (lookupCounts st.jobs_status name).1 ∧
        fs.failure_count = (lookupCounts st.jobs_status name).2 + 1)) ∧
      (run_job_safe st name job).saved_status =
        some (run_job_safe st name job).jobs_status := by
  refine ⟨finalJobStatus (lookupCounts st.jobs_status name) job,
    lookup_setAssoc _ _ _, ?_, ?_, rfl⟩
  · cases job with
    | ok r =>
      by_cases h : jobRetSuccess r = true <;> simp [finalJobStatus, h]
    | error e => simp [finalJobStatus]
  · cases job with
    | ok r =>
      by_cases h : jobRetSuccess r = true <;> simp [finalJobStatus, h]
    | error e => simp [finalJobStatus]

/-! ## Stored objects and the Latest Pointer (C10, C4) -/

/-- C10 (amended): `organize_data` writes the sidecar only when the caller
supplies a truthy (non-empty) metadata dict — not when metadata is absent or
empty — and when it does, the sidecar is exactly
`{file_info, data_info, metadata}` with `rows`/`columns` equal to the batch's
row and column counts. -/
theorem claim_C10_sidecar_schema (data : DataFrame) (dt src : String)
    (ts : Timestamp) (m : List (String × String)) (sz : Nat) (hm : m ≠ []) :
    (organize_data data dt src ts Option.none sz).sidecar = Option.none ∧
    (organize_data data dt src ts (some []) sz).sidecar = Option.none ∧
    (organize_data data dt src ts (some m) sz).sidecar = some
      { file_info :=
          { filename := dt ++ "_" ++ src ++ "_" ++ strftimeCompact ts ++ ".parquet",
            path := create_partitioned_path "raw" dt src ts ++
              [dt ++ "_" ++ src ++ "_" ++ strftimeCompact ts ++ ".parquet"],
            size_bytes := sz, created_at := ts },
        data_info := { rows := data.rows.length, columns := data.columns.length,
                       data_type := dt, source := src },
        metadata := m } := by
  refine ⟨rfl, rfl, ?_⟩
  simp only [organize_data, List.isEmpty_eq_true]
  rw [if_neg hm]

/-- Witness for C10 (amended) at a concrete call: no sidecar without
metadata, and the full schema with rows = 2, columns = 1 when a one-entry
metadata dict is supplied. -/
theorem claim_C10_sidecar_schema_witness :
    ([("k", "v")] : List (String × String)) ≠ [] ∧
    (organize_data ⟨["itemid"], [["1"], ["2"]]⟩ "events" "csv_ingestion"
      ⟨2025, 1, 2, 3, 4, 5⟩ Option.none 2048).sidecar = Option.none ∧
    (organize_data ⟨["itemid"], [["1"], ["2"]]⟩ "events" "csv_ingestion"
      ⟨2025, 1, 2, 3, 4, 5⟩ (some [("k", "v")]) 2048).sidecar = some
      { file_info :=
          { filename := "events_csv_ingestion_20250102_030405.parquet",
            path := ["raw", "source=csv_ingestion", "type=events",
                     "timestamp=20250102_030405",
                     "events_csv_ingestion_20250102_030405.parquet"],
            size_bytes := 2048, created_at := ⟨2025, 1, 2, 3, 4, 5⟩ },
        data_info := { rows := 2, columns := 1,
                       data_type := "events", source := "csv_ingestion" },
        metadata := [("k", "v")] } := by
  have h := claim_C10_sidecar_schema ⟨["itemid"], [["1"], ["2"]]⟩ "events"
    "csv_ingestion" ⟨2025, 1, 2, 3, 4, 5⟩ [("k", "v")] 2048 (by decide)
  exact ⟨by decide, h.1, h.2.2.trans (by decide)⟩

/-- Counterexample to C10 as stated: a successful `organize_data` call with
no metadata argument writes no sidecar at all (`if metadata:` is falsy), so
the sidecar is not produced "for every input batch ... including when no
metadata is supplied". -/
theorem claim_C10_counterexample :
    (organize_data ⟨["itemid"], [["1"], ["2"]]⟩ "events" "csv_ingestion"
      ⟨2025, 1, 2, 3, 4, 5⟩ Option.none 2048).sidecar = Option.none ∧
    (organize_data ⟨["itemid"], [["1"], ["2"]]⟩ "events" "csv_ingestion"
      ⟨2025, 1, 2, 3, 4, 5⟩ (some []) 2048).sidecar = Option.none := by
  exact ⟨rfl, rfl⟩

/-- C4: the Latest Pointer is only overwritten after a successful organize
call — a failed organize leaves the whole state unchanged — and after two
sequential successful organize calls for the same data type the pointer holds
the second call's batch, never the first's. -/
theorem claim_C4_latest_pointer (st : LakeState) (b1 b2 : DataFrame) (dt : String)
    (p1 p2 : List String) (e : String) (hne : b1 ≠ b2) :
    (events_save_step st b1 dt (.error e)).1 = st ∧
    (events_save_step
        ((events_save_step st b1 dt (.ok p1)).1) b2 dt (.ok p2)).1.latest.lookup dt
      = some b2 ∧
    (events_save_step
        ((events_save_step st b1 dt (.ok p1)).1) b2 dt (.ok p2)).1.latest.lookup dt
      ≠ some b1 := by
  refine ⟨rfl, lookup_setAssoc _ _ _, fun h => hne ?_⟩
  have h2 := (lookup_setAssoc
    ((events_save_step st b1 dt (.ok p1)).1).latest dt b2).symm.trans h
  exact (Option.some.inj h2).symm

/-- Witness for C4 at concrete batches: a failed organize leaves the empty
state untouched; after organizing batch "1" then batch "2" for `events`, the
pointer holds batch "2" and not batch "1". -/
theorem claim_C4_latest_pointer_witness :
    (⟨["v"], [["1"]]⟩ : DataFrame) ≠ (⟨["v"], [["2"]]⟩ : DataFrame) ∧
    (events_save_step ⟨[]⟩ ⟨["v"], [["1"]]⟩ "events" (.error "disk full")).1 = ⟨[]⟩ ∧
    (events_save_step
        ((events_save_step ⟨[]⟩ ⟨["v"], [["1"]]⟩ "events" (.ok ["p1"])).1)
        ⟨["v"], [["2"]]⟩ "events" (.ok ["p2"])).1.latest.lookup "events"
      = some ⟨["v"], [["2"]]⟩ ∧
    (events_save_step
        ((events_save_step ⟨[]⟩ ⟨["v"], [["1"]]⟩ "events" (.ok ["p1"])).1)
        ⟨["v"], [["2"]]⟩ "events" (.ok ["p2"])).1.latest.lookup "events"
      ≠ some ⟨["v"], [["1"]]⟩ := by
  have h := claim_C4_latest_pointer ⟨[]⟩ ⟨["v"], [["1"]]⟩ ⟨["v"], [["2"]]⟩
    "events" ["p1"] ["p2"] "disk full" (by decide)
  exact ⟨by decide, h.1, h.2.1, h.2.2⟩

end RecoMart
